import Mathlib

/-!
Verification of the network_monitor repository (src/src/main.rs,
src/src/cli.rs): the per-family prober with its hysteresis counter
(`monitor_ip`), the aggregator loop of `main` that merges the two
DownSignal streams, the CLI argument parsing, and the hostname
resolution of `parse_address`.

External collaborators (the tokio timer, the url parser, the DNS
resolver, the channels) are modelled as explicit parameters or as
definitions that follow the library's documented behaviour; everything
else is translated directly from the source.
-/

set_option maxRecDepth 8192

namespace NetworkMonitor

/-! ## Prober (`monitor_ip`, main.rs lines 65-97) -/

/-- Outcome of one `surge_ping::ping` call (main.rs line 73): the match at
lines 75-86 only distinguishes `Ok` from `Err`. -/
inductive ProbeOutcome
  | success
  | failure
  deriving DecidableEq, Repr

/-- Update of the `errors` counter for one probe outcome (main.rs lines
75-86): reset to 0 on success, incremented by 1 on failure. -/
def updateErrors (errors : Nat) : ProbeOutcome → Nat
  | .success => 0
  | .failure => errors + 1

/-- The boolean sent on the channel each tick (main.rs lines 88-92):
`errors >= ARGS.hysteresis`. -/
def downSignal (hysteresis errors : Nat) : Bool := hysteresis ≤ errors

/-- The prober loop (main.rs lines 72-95) run over a list of per-tick probe
outcomes, starting from counter value `errors`: per iteration it issues one
probe, updates the counter, and sends `downSignal` on the channel; the
returned list is the sequence of sent booleans, one per tick. -/
def monitorRun (hysteresis : Nat) : Nat → List ProbeOutcome → List Bool
  | _, [] => []
  | errors, o :: rest =>
      let e := updateErrors errors o
      downSignal hysteresis e :: monitorRun hysteresis e rest

/-- The counter value after the prober has processed `os` from a fresh start
(`errors = 0`, main.rs line 67). -/
def errorsAfter (os : List ProbeOutcome) : Nat := os.foldl updateErrors 0

/-- Independent characterisation of a consecutive-failure count: the length
of the maximal run of failures at the end of the list. -/
def trailingFailures (os : List ProbeOutcome) : Nat :=
  (os.reverse.takeWhile (· == ProbeOutcome.failure)).length

/-! ## Aggregator state (main.rs lines 144-151) -/

/-- Which prober stream an update came from (the two `mpsc` channels at
main.rs lines 138-142). -/
inductive Family
  | v4
  | v6
  deriving DecidableEq, Repr

/-- One received DownSignal: the family whose channel delivered it and the
boolean value (main.rs lines 162-167). -/
structure Update where
  fam : Family
  down : Bool
  deriving DecidableEq, Repr

/-- The log events the aggregator emits (`error!`/`info!` calls in the match
at main.rs lines 172-262). A recovery event carries the elapsed outage in
seconds when a start instant was recorded, `none` otherwise. -/
inductive Event
  | networkDown
  | v4Down
  | v6Down
  | v4BackOnline (dur : Option Nat)
  | v6BackOnline (dur : Option Nat)
  | networkBackOnline (dur : Option Nat)
  deriving DecidableEq, Repr

/-- The aggregator's mutable state (main.rs lines 144-151). `Instant`s are
modelled as natural-number timestamps in seconds. -/
structure AggState where
  v4_down : Bool
  v6_down : Bool
  v4_error_active : Bool
  v6_error_active : Bool
  v4_error_start : Option Nat
  v6_error_start : Option Nat
  deriving DecidableEq, Repr

/-- Initial aggregator state (main.rs lines 144-151): everything false,
no outage start recorded. -/
def initState : AggState :=
  ⟨false, false, false, false, none, none⟩

/-- The `select!` arms at main.rs lines 162-167: a received update overwrites
the down flag of its own family and leaves the other family's flag as last
received. -/
def applyUpdate (s : AggState) (u : Update) : AggState :=
  match u.fam with
  | .v4 => { s with v4_down := u.down }
  | .v6 => { s with v6_down := u.down }

/-- The match over `(v4_down, v6_down)` at main.rs lines 172-262, evaluated
at wall-clock time `now`: emits the log events of the taken branch and
updates `v4_error_active`, `v6_error_active` and the outage-start options
exactly as the source does.  `start.elapsed().as_secs()` is modelled as
`now - start`. -/
def aggEmit (now : Nat) (s : AggState) : AggState × List Event :=
  match s.v4_down, s.v6_down with
  | true, true =>
      let evs := if !(s.v4_error_active && s.v6_error_active) then [Event.networkDown] else []
      ({ s with v4_error_active := true, v6_error_active := true }, evs)
  | true, false =>
      let evs₁ := if !s.v4_error_active then [Event.v4Down] else []
      let r :=
        if s.v6_error_active then
          match s.v6_error_start with
          | some start => ([Event.v6BackOnline (some (now - start))], (none : Option Nat))
          | none => ([Event.v6BackOnline none], none)
        else ([], s.v6_error_start)
      ({ s with v4_error_active := true, v6_error_active := false, v6_error_start := r.2 },
        evs₁ ++ r.1)
  | false, true =>
      let evs₁ := if !s.v6_error_active then [Event.v6Down] else []
      let r :=
        if s.v4_error_active then
          match s.v4_error_start with
          | some start => ([Event.v4BackOnline (some (now - start))], (none : Option Nat))
          | none => ([Event.v4BackOnline none], none)
        else ([], s.v4_error_start)
      ({ s with v4_error_active := false, v6_error_active := true, v4_error_start := r.2 },
        evs₁ ++ r.1)
  | false, false =>
      if s.v4_error_active && s.v6_error_active then
        match s.v4_error_start with
        | some start =>
            ({ s with v4_error_active := false, v6_error_active := false, v4_error_start := none },
              [Event.networkBackOnline (some (now - start))])
        | none =>
            ({ s with v4_error_active := false, v6_error_active := false },
              [Event.networkBackOnline none])
      else if s.v4_error_active then
        match s.v4_error_start with
        | some start =>
            ({ s with v4_error_active := false, v6_error_active := false, v4_error_start := none },
              [Event.v4BackOnline (some (now - start))])
        | none =>
            ({ s with v4_error_active := false, v6_error_active := false },
              [Event.v4BackOnline none])
      else if s.v6_error_active then
        match s.v6_error_start with
        | some start =>
            ({ s with v4_error_active := false, v6_error_active := false, v6_error_start := none },
              [Event.v6BackOnline (some (now - start))])
        | none =>
            ({ s with v4_error_active := false, v6_error_active := false },
              [Event.v6BackOnline none])
      else
        ({ s with v4_error_active := false, v6_error_active := false }, [])

/-- One iteration of the aggregator loop (main.rs lines 160-263): receive an
update, then run the big match. -/
def aggStep (s : AggState) (now : Nat) (u : Update) : AggState × List Event :=
  aggEmit now (applyUpdate s u)

/-- The aggregator loop run over a timestamped list of received updates,
collecting all emitted events in order. -/
def aggRun : AggState → List (Nat × Update) → AggState × List Event
  | s, [] => (s, [])
  | s, (now, u) :: rest =>
      let p := aggStep s now u
      let q := aggRun p.1 rest
      (q.1, p.2 ++ q.2)

/-! ## Combined state (spec §4.2) -/

/-- The spec's `CombinedState` enumeration.  The source keeps no such enum;
it keeps the pair `(v4_down, v6_down)` and branches on it, so this type and
`combine` are the spec-side description to be compared against the code. -/
inductive CombinedState
  | Healthy
  | V4Down
  | V6Down
  | FullyDown
  deriving DecidableEq, Repr

/-- The spec's transition function over the two latest booleans: `FullyDown`
if both true, `V4Down` if only v4, `V6Down` if only v6, else `Healthy`. -/
def combine : Bool → Bool → CombinedState
  | true, true => .FullyDown
  | true, false => .V4Down
  | false, true => .V6Down
  | false, false => .Healthy

/-- The combined state the aggregator's stored pair denotes. -/
def combinedOf (s : AggState) : CombinedState := combine s.v4_down s.v6_down

/-- The last value received from family `f` in the update list, `false`
before the first signal from that family arrives. -/
def lastSignal (f : Family) (us : List (Nat × Update)) : Bool :=
  us.foldl (fun acc p => if p.2.fam = f then p.2.down else acc) false

/-! ## Channel send and process lifecycle (main.rs lines 88-92, 153-168) -/

/-- The prober's channel send (main.rs lines 88-92):
`is_error.send(v).await.expect("receiver died")`.  When the receiver half is
gone the send returns `Err` and `expect` panics with the message
"receiver died"; a panic is modelled as `Except.error`. -/
def sendDown (receiverGone : Bool) (v : Bool) : Except String Bool :=
  if receiverGone then Except.error "receiver died" else Except.ok v

/-- Why the `should_end` stream of main.rs lines 153-157 yields: either one of
the two prober tasks finished (which, since `monitor_ip` loops forever, only
happens when its send panicked), or the cancellation watch channel changed. -/
inductive TerminateReason
  | proberExited
  | cancelSignalled
  deriving DecidableEq, Repr

/-- One event the aggregator's `select!` (main.rs lines 161-169) can wake on:
a received update, or the `should_end` stream yielding. -/
inductive Incoming
  | upd (now : Nat) (u : Update)
  | terminate (r : TerminateReason)
  deriving DecidableEq, Repr

/-- The `main` loop of main.rs lines 160-263 driven by a list of incoming
wake-ups, followed by `main`'s return.  On `terminate` the loop `break`s,
`main` logs "logging stopped" and returns `()`, so the process exits with
status 0 — the third component: `none` while the loop is still blocked,
`some code` once the process has exited with status `code`. -/
def mainRun : AggState → List Incoming → AggState × List Event × Option Nat
  | s, [] => (s, [], none)
  | s, Incoming.terminate _ :: _ => (s, [], some 0)
  | s, Incoming.upd now u :: rest =>
      let p := aggStep s now u
      let q := mainRun p.1 rest
      (q.1, p.2 ++ q.2.1, q.2.2)

/-- The prober loop (main.rs lines 72-95) iterated against a cancellation
schedule `cancelled` (the watch channel's value at each tick index
`tick`, `tick + 1`, ...).  The loop body — ping, counter update, send,
`interval.tick().await` — contains no read of the cancellation channel, so
the recursion never consults `cancelled`: one probe is issued and one signal
sent per iteration regardless of the schedule. -/
def monitorLoopRun (hysteresis : Nat) (cancelled : Nat → Bool) :
    Nat → Nat → List ProbeOutcome → List Bool
  | _, _, [] => []
  | errors, tick, o :: rest =>
      let e := updateErrors errors o
      downSignal hysteresis e :: monitorLoopRun hysteresis cancelled e (tick + 1) rest

/-! ## Interval timing (main.rs lines 69-70)

The source builds `tokio::time::interval(Duration::from_secs(ARGS.interval))`
and selects `MissedTickBehavior::Delay`.  Per tokio's documentation of
`Delay`: a `tick` call made before the deadline completes at the deadline and
the following deadline is one period later; a `tick` call made after the
deadline (a missed tick) completes immediately and the following deadline is
one period after that completion, i.e. the whole schedule shifts. -/

/-- `(fire time, next deadline)` of one `tick().await` under
`MissedTickBehavior::Delay`, called at time `now` against deadline `d` with
period `p`. -/
def delayTick (p now d : Nat) : Nat × Nat :=
  if now ≤ d then (d, d + p) else (now, now + p)

/-- Successive tick fire times of the prober loop under `Delay`: iteration
`i`'s probe starts at time `s`, takes `b` (the head of the latency list), the
loop then calls `tick` at `s + b`, and the next iteration starts at the fire
time.  `d` is the interval's current deadline. -/
def fireTimes (p : Nat) : Nat → Nat → List Nat → List Nat
  | _, _, [] => []
  | d, s, b :: rest =>
      let f := delayTick p (s + b) d
      f.1 :: fireTimes p f.2 f.1 rest

/-! ## CLI argument parsing (cli.rs lines 9-33) -/

/-- Decimal accumulation over the characters of a numeric flag value, as
Rust's `from_str` for unsigned integers reads them: every character must be
a decimal digit. -/
def parseDigitsAux (acc : Nat) : List Char → Option Nat
  | [] => some acc
  | c :: rest =>
      if c.toNat < 48 ∨ 57 < c.toNat then none
      else parseDigitsAux (10 * acc + (c.toNat - 48)) rest

/-- A non-empty all-digit string's value, `none` otherwise: the common part
of Rust's `u64::from_str` and `u32::from_str`. -/
def decimalNat? (s : String) : Option Nat :=
  match s.data with
  | [] => none
  | c :: rest => parseDigitsAux 0 (c :: rest)

/-- clap's value parser for the `u64` field `interval` (cli.rs line 14):
`u64::from_str`, i.e. a non-empty digit string whose value fits in 64 bits
(overflow is a parse error); no other validation is attached to the flag. -/
def parseIntervalArg (s : String) : Option Nat :=
  match decimalNat? s with
  | some n => if n < 2 ^ 64 then some n else none
  | none => none

/-- clap's value parser for the `u32` field `hysteresis` (cli.rs line 22):
`u32::from_str`; no other validation is attached to the flag. -/
def parseHysteresisArg (s : String) : Option Nat :=
  match decimalNat? s with
  | some n => if n < 2 ^ 32 then some n else none
  | none => none

/-- The numeric part of `Args` parsing (cli.rs lines 11-26): the `interval`
and `hysteresis` flags with their clap defaults `"15"` (line 13) and `"2"`
(line 21); `some s` is a command line passing value `s` for the flag, `none`
a command line omitting it.  Returns `(interval, hysteresis)` when clap
accepts the command line. -/
def argsFrom (intervalArg hysteresisArg : Option String) : Option (Nat × Nat) :=
  match parseIntervalArg (intervalArg.getD "15") with
  | none => none
  | some i =>
      match parseHysteresisArg (hysteresisArg.getD "2") with
      | none => none
      | some h => some (i, h)

/-! ## Hostname resolution (`parse_address`, cli.rs lines 51-103)

The url crate and the DNS resolver are external collaborators: the outcome
of `url::Url::from_str(val)` together with `url.host()` is a parameter of
type `UrlParse`, and `resolver.lookup_ip` is a parameter
`lookup : String → Option (List RData)` (`none` models `Err(_e)`). -/

/-- What `url.host()` yields for a string that parsed as a URL. -/
inductive HostKind
  | domain (d : String)
  | ipAddr
  deriving DecidableEq, Repr

/-- Outcome of `url::Url::from_str(val)` (cli.rs line 52): not a URL, or a
URL with the given optional host. -/
inductive UrlParse
  | notUrl
  | url (host : Option HostKind)
  deriving DecidableEq, Repr

/-- One DNS record's data, as `r.data()` exposes it: an A record with an
IPv4 address, an AAAA record with an IPv6 address, or anything else.
Addresses are modelled as naturals. -/
inductive RData
  | a (addr : Nat)
  | aaaa (addr : Nat)
  | other
  deriving DecidableEq, Repr

/-- `record_iter().find_map(|r| Some(r.data()?.as_a()?.0))` (cli.rs lines
73, 90): the first A record's address. -/
def firstA : List RData → Option Nat
  | [] => none
  | RData.a addr :: _ => some addr
  | _ :: rest => firstA rest

/-- `record_iter().find_map(|r| Some(r.data()?.as_aaaa()?.0))` (cli.rs lines
74, 91): the first AAAA record's address. -/
def firstAAAA : List RData → Option Nat
  | [] => none
  | RData.aaaa addr :: _ => some addr
  | _ :: rest => firstAAAA rest

/-- The match over `(v4, v6)` duplicated at cli.rs lines 76-81 and 93-98. -/
def addrsFrom (recs : List RData) : Except String (Nat × Nat) :=
  match firstA recs, firstAAAA recs with
  | none, none => Except.error "The provided domain is invalid"
  | none, some _ => Except.error "The provided domain does not support IPv4"
  | some _, none => Except.error "The provided domain does not support IPv6"
  | some v4, some v6 => Except.ok (v4, v6)

/-- `parse_address` (cli.rs lines 51-103), with the url parse outcome and the
resolver passed in. -/
def parse_address (up : UrlParse) (lookup : String → Option (List RData))
    (val : String) : Except String (Nat × Nat) :=
  match up with
  | .url host =>
      match host with
      | none => Except.error "The provided URL does not have a domain"
      | some .ipAddr => Except.error "The provided URL must have a domain, not an IP address"
      | some (.domain d) =>
          match lookup d with
          | some recs => addrsFrom recs
          | none => Except.error "There was an error while trying to resolve the hostname"
  | .notUrl =>
      match lookup val with
      | some recs => addrsFrom recs
      | none => Except.error "There was an error while trying to resolve the hostname"

/-- The domain whose DNS lookup `parse_address` consults: the URL's domain
host when the input parses as a URL, the bare input otherwise, nothing when
the input is a URL without a domain host. -/
def effectiveDomain (up : UrlParse) (val : String) : Option String :=
  match up with
  | .url (some (.domain d)) => some d
  | .url _ => none
  | .notUrl => some val

/-! ## Lemmas about the prober -/

lemma errorsAfter_append (os : List ProbeOutcome) (o : ProbeOutcome) :
    errorsAfter (os ++ [o]) = updateErrors (errorsAfter os) o := by
  simp [errorsAfter, List.foldl_append]

lemma trailingFailures_nil : trailingFailures [] = 0 := rfl

lemma trailingFailures_append (os : List ProbeOutcome) (o : ProbeOutcome) :
    trailingFailures (os ++ [o]) =
      match o with
      | .failure => trailingFailures os + 1
      | .success => 0 := by
  cases o <;> simp [trailingFailures, List.reverse_append, List.takeWhile]

lemma errorsAfter_eq_trailingFailures (os : List ProbeOutcome) :
    errorsAfter os = trailingFailures os := by
  induction os using List.reverseRecOn with
  | nil => rfl
  | append_singleton os o ih =>
      rw [errorsAfter_append, trailingFailures_append]
      cases o <;> simp [updateErrors, ih]

lemma monitorRun_length (h : Nat) : ∀ (e : Nat) (os : List ProbeOutcome),
    (monitorRun h e os).length = os.length
  | _, [] => rfl
  | e, o :: rest => by
      simpa [monitorRun] using monitorRun_length h (updateErrors e o) rest

lemma monitorRun_getD (h : Nat) : ∀ (e i : Nat) (os : List ProbeOutcome),
    i < os.length →
    (monitorRun h e os).getD i false = downSignal h ((os.take (i + 1)).foldl updateErrors e)
  | _, _, [], hi => absurd hi (by simp)
  | e, 0, o :: rest, _ => by simp [monitorRun]
  | e, i + 1, o :: rest, hi => by
      have := monitorRun_getD h (updateErrors e o) i rest (by simpa using hi)
      simpa [monitorRun, List.take_succ_cons] using this

lemma take_succ_of_lt {α : Type} (l : List α) (i : Nat) (d : α) (hi : i < l.length) :
    l.take (i + 1) = l.take i ++ [l.getD i d] := by
  rw [List.take_succ, List.getD_eq_getElem?_getD, List.getElem?_eq_getElem hi]
  rfl

/-! ## Lemmas about the aggregator -/

lemma aggEmit_preserves_down (now : Nat) (s : AggState) :
    ((aggEmit now s).1).v4_down = s.v4_down ∧ ((aggEmit now s).1).v6_down = s.v6_down := by
  obtain ⟨a, b, c, d, e, f⟩ := s
  cases a <;> cases b <;> cases c <;> cases d <;> cases e <;> cases f <;> exact ⟨rfl, rfl⟩

lemma aggStep_v4_down (s : AggState) (now : Nat) (u : Update) :
    ((aggStep s now u).1).v4_down = if u.fam = Family.v4 then u.down else s.v4_down := by
  have h := aggEmit_preserves_down now (applyUpdate s u)
  obtain ⟨fam, down⟩ := u
  cases fam <;> simp_all [aggStep, applyUpdate]

lemma aggStep_v6_down (s : AggState) (now : Nat) (u : Update) :
    ((aggStep s now u).1).v6_down = if u.fam = Family.v6 then u.down else s.v6_down := by
  have h := aggEmit_preserves_down now (applyUpdate s u)
  obtain ⟨fam, down⟩ := u
  cases fam <;> simp_all [aggStep, applyUpdate]

lemma aggRun_v4_down : ∀ (us : List (Nat × Update)) (s : AggState),
    ((aggRun s us).1).v4_down =
      us.foldl (fun acc p => if p.2.fam = Family.v4 then p.2.down else acc) s.v4_down
  | [], _ => rfl
  | (now, u) :: rest, s => by
      rw [aggRun]
      simpa [aggStep_v4_down] using aggRun_v4_down rest (aggStep s now u).1

lemma aggRun_v6_down : ∀ (us : List (Nat × Update)) (s : AggState),
    ((aggRun s us).1).v6_down =
      us.foldl (fun acc p => if p.2.fam = Family.v6 then p.2.down else acc) s.v6_down
  | [], _ => rfl
  | (now, u) :: rest, s => by
      rw [aggRun]
      simpa [aggStep_v6_down] using aggRun_v6_down rest (aggStep s now u).1

lemma aggEmit_start_none (now : Nat) (s : AggState)
    (h4 : s.v4_error_start = none) (h6 : s.v6_error_start = none) :
    ((aggEmit now s).1).v4_error_start = none ∧ ((aggEmit now s).1).v6_error_start = none := by
  obtain ⟨a, b, c, d, e, f⟩ := s
  cases e
  · cases f
    · cases a <;> cases b <;> cases c <;> cases d <;> exact ⟨rfl, rfl⟩
    · exact absurd h6 (by simp)
  · exact absurd h4 (by simp)

lemma aggRun_start_none : ∀ (us : List (Nat × Update)) (s : AggState),
    s.v4_error_start = none → s.v6_error_start = none →
    ((aggRun s us).1).v4_error_start = none ∧ ((aggRun s us).1).v6_error_start = none
  | [], s, h4, h6 => ⟨h4, h6⟩
  | (now, u) :: rest, s, h4, h6 => by
      rw [aggRun]
      have happ4 : (applyUpdate s u).v4_error_start = none := by
        obtain ⟨fam, down⟩ := u; cases fam <;> simpa [applyUpdate] using h4
      have happ6 : (applyUpdate s u).v6_error_start = none := by
        obtain ⟨fam, down⟩ := u; cases fam <;> simpa [applyUpdate] using h6
      have hstep := aggEmit_start_none now (applyUpdate s u) happ4 happ6
      exact aggRun_start_none rest (aggStep s now u).1 hstep.1 hstep.2

/-! ## The claims -/

/-- C1: the aggregator's combined state, recomputed on every received
update, is a total function of nothing but the two latest-known down
booleans — each defaulting to `false` before the first signal from its
family — mapping (true, true) to `FullyDown`, (true, false) to `V4Down`,
(false, true) to `V6Down` and (false, false) to `Healthy`, with the family
that did not just update contributing its last received value. -/
theorem combined_state_function (us : List (Nat × Update)) :
    ((aggRun initState us).1).v4_down = lastSignal Family.v4 us ∧
    ((aggRun initState us).1).v6_down = lastSignal Family.v6 us ∧
    combinedOf ((aggRun initState us).1) =
      combine (lastSignal Family.v4 us) (lastSignal Family.v6 us) ∧
    (∀ b4 b6, combine b4 b6 =
      if b4 && b6 then CombinedState.FullyDown
      else if b4 then CombinedState.V4Down
      else if b6 then CombinedState.V6Down
      else CombinedState.Healthy) := by
  have h4 := aggRun_v4_down us initState
  have h6 := aggRun_v6_down us initState
  refine ⟨h4, h6, ?_, by decide⟩
  rw [combinedOf, h4, h6]; rfl

/-- C2 (the code violates it): no statement of `main` ever assigns
`Some(Instant::now())` to `v4_error_start` or `v6_error_start` (main.rs
lines 150-151 initialise them to `None` and lines 192, 212, 229, 242, 255
only reset them to `None`), so in every reachable aggregator state both
outage clocks are `none` — the clock is never started when a family's down
condition becomes true — and the recovery that follows a tracked
down-transition (failing input: a V4 down signal followed by a V4 up
signal) reports no elapsed duration. -/
theorem outage_clock_never_started :
    (∀ us : List (Nat × Update),
      ((aggRun initState us).1).v4_error_start = none ∧
      ((aggRun initState us).1).v6_error_start = none) ∧
    (aggRun initState [(0, ⟨Family.v4, true⟩), (5, ⟨Family.v4, false⟩)]).2 =
      [Event.v4Down, Event.v4BackOnline none] := by
  exact ⟨fun us => aggRun_start_none us initState rfl rfl, by decide⟩

/-- C3: over any sequence of per-tick probe outcomes with hysteresis
threshold `h ≥ 1`, the prober sends exactly one boolean per tick, the
counter is reset to 0 by a success and incremented by 1 by a failure, the
boolean sent at tick `i` is `counter ≥ h`, i.e. it is true exactly when the
consecutive-failure run ending at tick `i` has length at least `h` (so it
becomes true at the tick where the count first reaches `h`), and it is
false at any tick whose probe succeeded (the very next success). -/
theorem prober_hysteresis (h : Nat) (hpos : 1 ≤ h) (os : List ProbeOutcome) :
    (monitorRun h 0 os).length = os.length ∧
    (∀ e, updateErrors e ProbeOutcome.success = 0 ∧
      updateErrors e ProbeOutcome.failure = e + 1) ∧
    (∀ i, i < os.length →
      ((monitorRun h 0 os).getD i false =
        downSignal h (trailingFailures (os.take (i + 1))) ∧
      (os.getD i ProbeOutcome.failure = ProbeOutcome.success →
        (monitorRun h 0 os).getD i false = false))) := by
  refine ⟨monitorRun_length h 0 os, fun e => ⟨rfl, rfl⟩, fun i hi => ?_⟩
  have hbase := monitorRun_getD h 0 i os hi
  have hchar : (monitorRun h 0 os).getD i false =
      downSignal h (trailingFailures (os.take (i + 1))) := by
    rw [hbase, ← errorsAfter_eq_trailingFailures]; rfl
  refine ⟨hchar, fun hsucc => ?_⟩
  have htake := take_succ_of_lt os i ProbeOutcome.failure hi
  rw [hchar, htake, hsucc, trailingFailures_append]
  simp [downSignal]
  omega

/-- Witness for `prober_hysteresis` at `h = 2` over the outcome sequence
failure, failure, success: three signals are sent, the signal at tick 1 is
the consecutive-failure test, and the signal at tick 2 (a success) is
false. -/
theorem prober_hysteresis_witness :
    (monitorRun 2 0 [ProbeOutcome.failure, ProbeOutcome.failure, ProbeOutcome.success]).length = 3 ∧
    (monitorRun 2 0 [ProbeOutcome.failure, ProbeOutcome.failure, ProbeOutcome.success]).getD 1 false =
      downSignal 2 (trailingFailures [ProbeOutcome.failure, ProbeOutcome.failure]) ∧
    (monitorRun 2 0 [ProbeOutcome.failure, ProbeOutcome.failure, ProbeOutcome.success]).getD 2 false = false := by
  have h := prober_hysteresis 2 (by decide)
    [ProbeOutcome.failure, ProbeOutcome.failure, ProbeOutcome.success]
  exact ⟨h.1, (h.2.2 1 (by decide)).1, (h.2.2 2 (by decide)).2 rfl⟩

/-- C4: in any aggregator state the loop can be in when it processes an
update (the error-active pair always equals the stored down pair, which
holds initially and is re-established by every branch of the match), if the
combined state recomputed after the update equals the previous combined
state then the iteration emits no log event — so an event is only ever
emitted on a state change, and two consecutive events of the same
`CombinedState` always have a state change between them. -/
theorem suppression_no_event (s : AggState) (now : Nat) (u : Update)
    (h4 : s.v4_error_active = s.v4_down) (h6 : s.v6_error_active = s.v6_down)
    (hsame : combinedOf ((aggStep s now u).1) = combinedOf s) :
    (aggStep s now u).2 = [] := by
  obtain ⟨a, b, c, d, e, f⟩ := s
  obtain ⟨fam, down⟩ := u
  cases fam <;> cases down <;> cases a <;> cases b <;> cases c <;> cases d <;>
    cases e <;> cases f <;>
    simp_all [aggStep, applyUpdate, aggEmit, combinedOf, combine]

/-- Witness for `suppression_no_event`: a `false` V4 signal received in the
initial (all-healthy) state changes nothing and emits nothing. -/
theorem suppression_no_event_witness :
    (aggStep initState 0 ⟨Family.v4, false⟩).2 = [] :=
  suppression_no_event initState 0 ⟨Family.v4, false⟩ rfl rfl (by decide)

/-- C5 is false as stated: in the reachable staggered state where V6 is
already down and error-active and a `true` V4 signal arrives — only V4
newly enters its down state — the code's `(true, true)` branch emits the
single event "network is down!" and not the "IPv4 is down!" event the
claim's second half promises for the newly-down family. -/
theorem staggered_entry_no_family_event :
    (aggStep ⟨false, true, false, true, none, none⟩ 0 ⟨Family.v4, true⟩).2 =
      [Event.networkDown] ∧
    Event.v4Down ∉ (aggStep ⟨false, true, false, true, none, none⟩ 0 ⟨Family.v4, true⟩).2 := by
  exact ⟨rfl, by decide⟩

/-- C5 amended: whenever one processed update leaves both down flags true
and the two errors were not already both active — both families newly down
together, or one family newly down while the other was already down — the
iteration emits exactly the single error event "network is down!" and no
per-family down event; a family's own down event is emitted exactly in the
case where that family newly enters its down state and the update leaves
the other family up. -/
theorem fully_down_single_event (s : AggState) (now : Nat) (u : Update) :
    (((aggStep s now u).1).v4_down = true → ((aggStep s now u).1).v6_down = true →
      (s.v4_error_active && s.v6_error_active) = false →
      (aggStep s now u).2 = [Event.networkDown]) ∧
    (((aggStep s now u).1).v4_down = true → ((aggStep s now u).1).v6_down = false →
      s.v4_error_active = false →
      Event.v4Down ∈ (aggStep s now u).2 ∧ Event.networkDown ∉ (aggStep s now u).2 ∧
        Event.v6Down ∉ (aggStep s now u).2) ∧
    (((aggStep s now u).1).v4_down = false → ((aggStep s now u).1).v6_down = true →
      s.v6_error_active = false →
      Event.v6Down ∈ (aggStep s now u).2 ∧ Event.networkDown ∉ (aggStep s now u).2 ∧
        Event.v4Down ∉ (aggStep s now u).2) := by
  obtain ⟨a, b, c, d, e, f⟩ := s
  obtain ⟨fam, down⟩ := u
  cases fam <;> cases down <;> cases a <;> cases b <;> cases c <;> cases d <;>
    cases e <;> cases f <;>
    simp_all [aggStep, applyUpdate, aggEmit]

/-- Witness for `fully_down_single_event`: with V4 already signalled down
but no error active yet, a `true` V6 signal makes both families newly down
and the iteration emits exactly the one fully-down event. -/
theorem fully_down_single_event_witness :
    (aggStep ⟨true, false, false, false, none, none⟩ 0 ⟨Family.v6, true⟩).2 =
      [Event.networkDown] :=
  (fully_down_single_event ⟨true, false, false, false, none, none⟩ 0
    ⟨Family.v6, true⟩).1 rfl rfl rfl

lemma mainRun_exit_of_terminate : ∀ (incs : List Incoming) (s : AggState) (r : TerminateReason),
    Incoming.terminate r ∈ incs → (mainRun s incs).2.2 = some 0
  | [], _, _, hmem => absurd hmem (by simp)
  | Incoming.terminate _ :: _, _, _, _ => rfl
  | Incoming.upd now u :: rest, s, r, hmem => by
      have hrest : Incoming.terminate r ∈ rest := by
        rcases List.mem_cons.mp hmem with h | h
        · cases h
        · exact h
      rw [mainRun]
      exact mainRun_exit_of_terminate rest (aggStep s now u).1 r hrest

/-- C6 is false of the code: a send whose receiver is gone panics the
prober task with "receiver died", but the panic stays inside the spawned
task — `main`'s `should_end` future (main.rs lines 153-157) resolves when a
prober task finishes, the loop `break`s and `main` returns `()`, so the
process exits with status 0, not a non-zero status. -/
theorem send_failure_exit_not_nonzero :
    sendDown true true = Except.error "receiver died" ∧
    (mainRun initState [Incoming.terminate TerminateReason.proberExited]).2.2 = some 0 ∧
    ¬ ∃ n, (mainRun initState [Incoming.terminate TerminateReason.proberExited]).2.2 = some n ∧
      n ≠ 0 := by
  refine ⟨rfl, rfl, ?_⟩
  rintro ⟨n, hn, hne⟩
  have h0 : (0 : Nat) = n := by simpa [mainRun] using hn
  exact hne h0.symm

/-- C6 amended: a failed send is fatal for its prober task (the `expect`
panics with "receiver died"), and `main`'s select observes any prober
task's termination and breaks out of its loop, so the whole process does
terminate — but by `main` returning normally, with exit status 0. -/
theorem broken_pipeline_exit_zero (v : Bool) (incs : List Incoming)
    (hmem : Incoming.terminate TerminateReason.proberExited ∈ incs) :
    sendDown true v = Except.error "receiver died" ∧
    (mainRun initState incs).2.2 = some 0 :=
  ⟨rfl, mainRun_exit_of_terminate incs initState TerminateReason.proberExited hmem⟩

/-- Witness for `broken_pipeline_exit_zero` on the one-element wake-up list
containing just the prober-exit notification. -/
theorem broken_pipeline_exit_zero_witness :
    sendDown true true = Except.error "receiver died" ∧
    (mainRun initState [Incoming.terminate TerminateReason.proberExited]).2.2 = some 0 :=
  broken_pipeline_exit_zero true [Incoming.terminate TerminateReason.proberExited]
    (List.mem_singleton.mpr rfl)

/-- C7 is false of the code: the prober loop of `monitor_ip` (main.rs lines
72-95) contains no read of the cancellation channel, so with the
cancellation flag set from tick 0 onwards it still issues one probe and one
send per remaining tick — here 3 probes over 3 ticks, not the at most one
tick the claim allows after the signal is observed. -/
theorem prober_ignores_cancellation :
    (monitorLoopRun 2 (fun _ => true) 0 0
      [ProbeOutcome.failure, ProbeOutcome.failure, ProbeOutcome.failure]).length = 3 ∧
    ¬ (3 ≤ 1) := by
  exact ⟨rfl, by decide⟩

lemma monitorLoopRun_ignores_cancel (h : Nat) (c c' : Nat → Bool) :
    ∀ (os : List ProbeOutcome) (e t t' : Nat),
    monitorLoopRun h c e t os = monitorLoopRun h c' e t' os
  | [], _, _, _ => rfl
  | o :: rest, e, t, t' => by
      rw [monitorLoopRun, monitorLoopRun]
      exact congrArg _ (monitorLoopRun_ignores_cancel h c c' rest (updateErrors e o) (t + 1) (t' + 1))

/-- C7 amended: only the aggregator's receive loop observes cancellation —
when the `should_end` stream yields, the loop breaks at once, processing no
further updates and emitting nothing more; the two prober loops never
consult the cancellation flag (their entire output is identical under every
cancellation schedule) and are instead torn down abruptly with the runtime
when `main` returns. -/
theorem cancellation_observed_only_by_aggregator (c c' : Nat → Bool)
    (h e t t' : Nat) (os : List ProbeOutcome) (s : AggState)
    (r : TerminateReason) (rest : List Incoming) :
    monitorLoopRun h c e t os = monitorLoopRun h c' e t' os ∧
    mainRun s (Incoming.terminate r :: rest) = (s, [], some 0) :=
  ⟨monitorLoopRun_ignores_cancel h c c' os e t t', rfl⟩

/-- C8 is false of the code: `monitor_ip` selects `MissedTickBehavior::Delay`
(main.rs line 70), so after a probe overruns its period the tick schedule
shifts instead of staying a fixed-rate clock.  With a 10-second period,
first deadline 10 and probe latencies 25, 0, 0, the ticks fire at 25, 35
and 45 — permanently off the fixed-rate grid of multiples of 10 the claim
promises (a skip policy would fire at 25, 30, 40): the overrun's delay
compounds into every later tick. -/
theorem delay_policy_shifts_schedule :
    fireTimes 10 10 0 [25, 0, 0] = [25, 35, 45] ∧ ¬ (35 % 10 = 0) := by
  exact ⟨rfl, by decide⟩

/-- C8 amended: under the `Delay` missed-tick behaviour the code selects, a
tick called after its deadline fires immediately and is never queued, but
the following deadline becomes one full period after the late fire time —
strictly later than the on-schedule deadline — so an overrunning probe
delays every subsequent tick rather than leaving the interval a fixed-rate
clock. -/
theorem delay_missed_tick (p now d : Nat) (hlate : d < now) :
    delayTick p now d = (now, now + p) ∧ d + p < (delayTick p now d).2 := by
  have hnot : ¬ now ≤ d := Nat.not_le.mpr hlate
  constructor
  · simp [delayTick, hnot]
  · simp [delayTick, hnot]
    omega

/-- Witness for `delay_missed_tick`: period 10, deadline 10, tick called
late at 25. -/
theorem delay_missed_tick_witness :
    delayTick 10 25 10 = (25, 35) ∧ 10 + 10 < (delayTick 10 25 10).2 :=
  delay_missed_tick 10 25 10 (by decide)

/-- C9 is false of the code: neither numeric flag carries a lower-bound
validator (cli.rs lines 13-14 and 21-22 attach only the type parsers and
defaults), so clap accepts the command line `--interval 0 --hysteresis 0`
and the resulting `Args` has interval 0 and hysteresis 0, violating the
claimed bounds interval ≥ 1 and hysteresis ≥ 1. -/
theorem parser_accepts_zero :
    argsFrom (some "0") (some "0") = some (0, 0) ∧ ¬ (1 ≤ (0 : Nat)) := by
  exact ⟨rfl, by decide⟩

lemma parseIntervalArg_lt (s : String) (n : Nat) (hp : parseIntervalArg s = some n) :
    n < 2 ^ 64 := by
  unfold parseIntervalArg at hp
  cases hd : decimalNat? s with
  | none => rw [hd] at hp; cases hp
  | some m =>
      rw [hd] at hp
      simp only at hp
      split at hp
      · cases hp; assumption
      · cases hp

lemma parseHysteresisArg_lt (s : String) (n : Nat) (hp : parseHysteresisArg s = some n) :
    n < 2 ^ 32 := by
  unfold parseHysteresisArg at hp
  cases hd : decimalNat? s with
  | none => rw [hd] at hp; cases hp
  | some m =>
      rw [hd] at hp
      simp only at hp
      split at hp
      · cases hp; assumption
      · cases hp

/-- C9 amended: the accepted values are only bounded by their machine types
(interval any u64, hysteresis any u32, 0 included); the defaults 15 and 2
do satisfy the claimed lower bounds, but no command-line validation
enforces interval ≥ 1 or hysteresis ≥ 1. -/
theorem args_bounds (si sh : Option String) (i h : Nat)
    (hacc : argsFrom si sh = some (i, h)) :
    i < 2 ^ 64 ∧ h < 2 ^ 32 ∧ argsFrom none none = some (15, 2) := by
  unfold argsFrom at hacc
  cases hi : parseIntervalArg (si.getD "15") with
  | none => rw [hi] at hacc; cases hacc
  | some i' =>
      rw [hi] at hacc
      cases hh : parseHysteresisArg (sh.getD "2") with
      | none => rw [hh] at hacc; cases hacc
      | some h' =>
          rw [hh] at hacc
          simp only [Option.some.injEq, Prod.mk.injEq] at hacc
          obtain ⟨rfl, rfl⟩ := hacc
          exact ⟨parseIntervalArg_lt _ _ hi, parseHysteresisArg_lt _ _ hh, rfl⟩

/-- Witness for `args_bounds`: the command line passing 0 for both flags is
accepted, and the default command line yields interval 15, hysteresis 2. -/
theorem args_bounds_witness :
    (0 : Nat) < 2 ^ 64 ∧ (0 : Nat) < 2 ^ 32 ∧ argsFrom none none = some (15, 2) :=
  args_bounds (some "0") (some "0") 0 0 rfl

lemma addrsFrom_ok_iff (recs : List RData) :
    (∃ a b, addrsFrom recs = Except.ok (a, b)) ↔
      (∃ a, firstA recs = some a) ∧ (∃ b, firstAAAA recs = some b) := by
  cases ha : firstA recs <;> cases hb : firstAAAA recs <;>
    simp [addrsFrom, ha, hb]

/-- C10: `parse_address` succeeds exactly when the DNS lookup of the
effective domain (the URL's domain host when the input parses as a URL, the
bare input otherwise) succeeds and its records contain both an A and an
AAAA record; when exactly one of the two is present it fails with the error
naming the missing address family, so a successful start always has both an
IPv4 and an IPv6 target. -/
theorem parse_address_requires_both (up : UrlParse)
    (lookup : String → Option (List RData)) (val : String) :
    ((∃ p, parse_address up lookup val = Except.ok p) ↔
      (∃ d recs, effectiveDomain up val = some d ∧ lookup d = some recs ∧
        (∃ a, firstA recs = some a) ∧ (∃ b, firstAAAA recs = some b))) ∧
    (∀ d recs b, effectiveDomain up val = some d → lookup d = some recs →
      firstA recs = none → firstAAAA recs = some b →
      parse_address up lookup val = Except.error "The provided domain does not support IPv4") ∧
    (∀ d recs a, effectiveDomain up val = some d → lookup d = some recs →
      firstA recs = some a → firstAAAA recs = none →
      parse_address up lookup val = Except.error "The provided domain does not support IPv6") := by
  rcases up with _ | host
  · refine ⟨?_, ?_, ?_⟩
    · cases hl : lookup val <;>
        simp [parse_address, effectiveDomain, hl, addrsFrom_ok_iff]
    · intro d recs b hd hl ha hb
      obtain rfl : d = val := by simpa [effectiveDomain] using hd.symm
      simp [parse_address, hl, addrsFrom, ha, hb]
    · intro d recs a hd hl ha hb
      obtain rfl : d = val := by simpa [effectiveDomain] using hd.symm
      simp [parse_address, hl, addrsFrom, ha, hb]
  · rcases host with _ | hk
    · exact ⟨by simp [parse_address, effectiveDomain], by simp [effectiveDomain],
        by simp [effectiveDomain]⟩
    · rcases hk with d₀ | _
      · refine ⟨?_, ?_, ?_⟩
        · cases hl : lookup d₀ <;>
            simp [parse_address, effectiveDomain, hl, addrsFrom_ok_iff]
        · intro d recs b hd hl ha hb
          obtain rfl : d = d₀ := by simpa [effectiveDomain] using hd.symm
          simp [parse_address, hl, addrsFrom, ha, hb]
        · intro d recs a hd hl ha hb
          obtain rfl : d = d₀ := by simpa [effectiveDomain] using hd.symm
          simp [parse_address, hl, addrsFrom, ha, hb]
      · exact ⟨by simp [parse_address, effectiveDomain], by simp [effectiveDomain],
          by simp [effectiveDomain]⟩

/-- Witness for `parse_address_requires_both`: a bare domain resolving to
an A record only is rejected with the IPv6-naming error. -/
theorem parse_address_requires_both_witness :
    parse_address UrlParse.notUrl (fun _ => some [RData.a 1]) "example" =
      Except.error "The provided domain does not support IPv6" :=
  (parse_address_requires_both UrlParse.notUrl (fun _ => some [RData.a 1]) "example").2.2
    "example" [RData.a 1] 1 rfl rfl rfl rfl

end NetworkMonitor
